import Mathlib

/-!
# Verification of the insider-threat detection pipeline

Shallow embedding of `identify_insider_threats` from
`src/unnamed/part_000` (full pipeline: sensitive-access scoring,
lateral-movement detection, incident correlation) and of the scoring-only
variant in `src/Insider_Threat_Detection.py`.

Modelling conventions:
* a parsed access-log row is an `AccessEvent`; timestamps are integers
  (seconds since the Unix epoch), so pandas' calendar-hour resampling
  becomes flooring division by 3600;
* the pandas sensitive-event count series is an association list
  `List (String × ℕ)` keyed by the distinct users of the sensitive rows;
* `mean` / sample standard deviation (`ddof = 1`) over the count values
  are exact: the mean and variance are rationals, the standard deviation
  is the real square root of the variance.  For fewer than two values
  pandas' `std` is NaN; `listStd` returns `none` in that case and a
  comparison against a `none` threshold is false, exactly as every
  comparison against NaN is false in pandas;
* the executable pipeline decides `count > mean + f·√var` by the
  equivalent square comparison on rationals (`exceeds`), proved
  equivalent to the real-number formula in `exceeds_iff_thresholdOf`;
* file loading is an external collaborator: it is modelled as a function
  `String → Option (List AccessEvent)` (`none` = `FileNotFoundError`,
  which the source catches and turns into a `None` return).
-/

/-- One parsed access-log record: the columns `useridentity`, `eventtype`,
`eventtime` and `system` used by the source.  `eventtime` is in seconds
since the Unix epoch. -/
structure AccessEvent where
  useridentity : String
  eventtype : String
  eventtime : ℤ
  system : String
deriving DecidableEq

/-- Epoch seconds of `datetime(2022, 1, 1)`: 18993 days elapsed from
1970-01-01 to 2022-01-01 (13 leap years among 1972..2020), times 86400. -/
def date20220101 : ℤ := 18993 * 86400

/-- Epoch seconds of `datetime(2022, 7, 1)`: 181 further days
(Jan 31 + Feb 28 + Mar 31 + Apr 30 + May 31 + Jun 30; 2022 is not a leap
year). -/
def date20220701 : ℤ := (18993 + 181) * 86400

/-- `start_date if start_date is not None else datetime(2022, 1, 1)`. -/
def resolvedStart (sd : Option ℤ) : ℤ := sd.getD date20220101

/-- `end_date if end_date is not None else datetime(2022, 7, 1)`. -/
def resolvedEnd (ed : Option ℤ) : ℤ := ed.getD date20220701

/-- `access_logs[(access_logs['eventtime'] >= start_date) & (access_logs['eventtime'] < end_date)]`. -/
def filterByDate (logs : List AccessEvent) (s e : ℤ) : List AccessEvent :=
  logs.filter (fun ev => decide (s ≤ ev.eventtime) && decide (ev.eventtime < e))

/-- The date-filtered collection handed to scoring, with the source's
defaulting of missing dates applied. -/
def scoredCollection (logs : List AccessEvent) (sd ed : Option ℤ) : List AccessEvent :=
  filterByDate logs (resolvedStart sd) (resolvedEnd ed)

/-- `access_logs[access_logs['eventtype'].isin(sensitive_events)]`. -/
def sensitiveEvents (logs : List AccessEvent) (sensitive : List String) : List AccessEvent :=
  logs.filter (fun e => sensitive.contains e.eventtype)

/-- The distinct user identities occurring in a row list — the group-by
index of `groupby('useridentity')`. -/
def usersOf (logs : List AccessEvent) : List String :=
  (logs.map (fun e => e.useridentity)).dedup

/-- Number of rows of a given user — one group's `count()`. -/
def countFor (logs : List AccessEvent) (u : String) : ℕ :=
  (logs.filter (fun e => e.useridentity == u)).length

/-- `access_logs[access_logs['eventtype'].isin(sensitive_events)].groupby('useridentity')['eventtype'].count()`:
the per-user sensitive-event count series, as an association list keyed by
the distinct users of the sensitive rows. -/
def userSensitiveCounts (logs : List AccessEvent) (sensitive : List String) :
    List (String × ℕ) :=
  (usersOf (sensitiveEvents logs sensitive)).map
    (fun u => (u, countFor (sensitiveEvents logs sensitive) u))

/-- The values of the count series, as rationals. -/
def countValues (logs : List AccessEvent) (sensitive : List String) : List ℚ :=
  (userSensitiveCounts logs sensitive).map (fun p => (p.2 : ℚ))

/-- Pandas `Series.mean()`: sum divided by length. -/
def listMean (xs : List ℚ) : ℚ := xs.sum / (xs.length : ℚ)

/-- The sample variance (`ddof = 1`) underlying pandas `Series.std()`:
sum of squared deviations from the mean over `n - 1`. -/
def listVar (xs : List ℚ) : ℚ :=
  ((xs.map (fun x => (x - listMean xs) ^ 2)).sum) / ((xs.length : ℚ) - 1)

/-- Pandas `Series.std()` (`ddof = 1`): the square root of the sample
variance when at least two values are present, NaN (modelled as `none`)
otherwise. -/
noncomputable def listStd (xs : List ℚ) : Option ℝ :=
  if xs.length < 2 then none else some (Real.sqrt ((listVar xs : ℚ) : ℝ))

/-- `threshold = user_sensitive_event_counts.mean() + threshold_factor * user_sensitive_event_counts.std()`.
`none` models the NaN threshold arising from a single-element series. -/
noncomputable def thresholdOf (xs : List ℚ) (f : ℚ) : Option ℝ :=
  (listStd xs).map (fun s => ((listMean xs : ℚ) : ℝ) + (f : ℝ) * s)

/-- Comparison of a value against an optional real threshold: a comparison
against NaN (`none`) is false in pandas. -/
def gtThreshold (c : ℚ) : Option ℝ → Prop
  | none => False
  | some t => (c : ℝ) > t

/-- Executable rendering of `count > mean + threshold_factor * std` in
exact rational arithmetic: the square root is eliminated by comparing
squares (soundness is `exceeds_iff_thresholdOf`).  A series of fewer than
two values has NaN standard deviation, and a comparison against NaN is
false. -/
def exceeds (c f : ℚ) (xs : List ℚ) : Bool :=
  decide (2 ≤ xs.length) &&
    (if 0 ≤ f then
      decide (listMean xs < c) && decide (f ^ 2 * listVar xs < (c - listMean xs) ^ 2)
     else
      decide (listMean xs < c) || decide ((c - listMean xs) ^ 2 < f ^ 2 * listVar xs))

/-- `suspected_insiders = user_sensitive_event_counts[user_sensitive_event_counts > threshold]`,
restricted to its index (the suspect users). -/
def sensitiveSuspects (logs : List AccessEvent) (sensitive : List String) (f : ℚ) :
    List String :=
  ((userSensitiveCounts logs sensitive).filter
      (fun p => exceeds (p.2 : ℚ) f (countValues logs sensitive))).map (fun p => p.1)

/-- All rows of one user: one group of `groupby('useridentity')`. -/
def eventsOfUser (logs : List AccessEvent) (u : String) : List AccessEvent :=
  logs.filter (fun e => e.useridentity == u)

/-- The calendar-hour bin of a timestamp: `resample('1H')` bins are
aligned to hour boundaries, i.e. to multiples of 3600 seconds. -/
def hourOf (t : ℤ) : ℤ := Int.fdiv t 3600

/-- The occupied hour bins of a row list. -/
def hoursOf (evs : List AccessEvent) : List ℤ :=
  (evs.map (fun e => hourOf e.eventtime)).dedup

/-- `['system'].nunique()` within one hour bin: the number of distinct
`system` values among the rows falling in that bin. -/
def distinctSystemsInHour (evs : List AccessEvent) (h : ℤ) : ℕ :=
  (((evs.filter (fun e => hourOf e.eventtime == h)).map (fun e => e.system)).dedup).length

/-- `df.set_index('eventtime').resample('1H')['system'].nunique().max()`
for one user's rows: the maximum over occupied hour bins of the number of
distinct systems touched in the bin (empty bins contribute 0 and never
raise the maximum). -/
def lateralScore (evs : List AccessEvent) : ℕ :=
  ((hoursOf evs).map (fun h => distinctSystemsInHour evs h)).foldr max 0

/-- `lateral_movement_suspects = lateral_movements[lateral_movements >= lateral_threshold]`,
restricted to its index. -/
def lateralSuspects (logs : List AccessEvent) (latThr : ℕ) : List String :=
  (usersOf logs).filter (fun u => decide (latThr ≤ lateralScore (eventsOfUser logs u)))

/-- Review order of the incident output:
`sort_values(by=['useridentity', 'eventtime'])` sorts by the pair
`(useridentity, eventtime)` lexicographically ascending. -/
def lexLe (a b : AccessEvent) : Prop :=
  a.useridentity < b.useridentity ∨
    (a.useridentity = b.useridentity ∧ a.eventtime ≤ b.eventtime)

instance : DecidableRel lexLe := fun a b => by
  unfold lexLe
  exact inferInstance

instance : IsTotal AccessEvent lexLe := by
  constructor
  intro a b
  rcases lt_trichotomy a.useridentity b.useridentity with h | h | h
  · exact Or.inl (Or.inl h)
  · rcases le_total a.eventtime b.eventtime with h' | h'
    · exact Or.inl (Or.inr ⟨h, h'⟩)
    · exact Or.inr (Or.inr ⟨h.symm, h'⟩)
  · exact Or.inr (Or.inl h)

instance : IsTrans AccessEvent lexLe := by
  constructor
  intro a b c hab hbc
  rcases hab with h1 | ⟨h1, h1'⟩
  · rcases hbc with h2 | ⟨h2, _⟩
    · exact Or.inl (h1.trans h2)
    · exact Or.inl (h2 ▸ h1)
  · rcases hbc with h2 | ⟨h2, h2'⟩
    · exact Or.inl (h1 ▸ h2)
    · exact Or.inr ⟨h1.trans h2, h1'.trans h2'⟩

/-- `incidents.sort_values(by=['useridentity', 'eventtime'])`. -/
def sortIncidents (l : List AccessEvent) : List AccessEvent :=
  List.insertionSort lexLe l

/-- The core of `identify_insider_threats` from `src/unnamed/part_000`,
acting on the already-parsed log rows (file loading is the external
collaborator, modelled separately by `identifyFromFile`): validate the
sensitive set, apply date defaulting and half-open filtering, score
sensitive access, detect lateral movement, intersect the suspect sets and
return the sorted incident rows; every no-result path returns `none`
exactly where the source returns `None`. -/
def identify_insider_threats (logs : List AccessEvent) (sensitive : List String)
    (latThr : ℕ) (start_date end_date : Option ℤ) (threshold_factor : ℚ) :
    Option (List AccessEvent) :=
  if sensitive.isEmpty then none
  else
    let filtered := scoredCollection logs start_date end_date
    let counts := userSensitiveCounts filtered sensitive
    if counts.isEmpty then none
    else
      let suspects := sensitiveSuspects filtered sensitive threshold_factor
      let latSusp := lateralSuspects filtered latThr
      let combined := suspects.filter (fun u => latSusp.contains u)
      if combined.isEmpty then none
      else
        some (sortIncidents (filtered.filter (fun ev => combined.contains ev.useridentity)))

/-- The rows carried by a result: a `None` result carries none. -/
def resultEvents (r : Option (List AccessEvent)) : List AccessEvent := r.getD []

/-- `identify_insider_threats` as called with a file path: the loader
collaborator (`pd.read_csv` plus timestamp parsing) either yields parsed
rows or fails (`none`, the `FileNotFoundError` path, which the source
catches and converts to a `None` return).  The source's
`if not access_logs_file or not sensitive_events` guard rejects an empty
path or an empty sensitive set up front. -/
def identifyFromFile (loader : String → Option (List AccessEvent))
    (accessLogsFile : String) (sensitive : List String)
    (latThr : ℕ) (start_date end_date : Option ℤ) (threshold_factor : ℚ) :
    Option (List AccessEvent) :=
  if accessLogsFile.isEmpty || sensitive.isEmpty then none
  else
    match loader accessLogsFile with
    | none => none
    | some logs => identify_insider_threats logs sensitive latThr start_date end_date threshold_factor

/-- Module-level constant of `src/unnamed/part_000`:
`access_logs_file = 'your_real_access_logs.csv'`. -/
def part000AccessLogsFile : String := "your_real_access_logs.csv"

/-- Module-level constant of `src/unnamed/part_000`:
`sensitive_events = ['sensitive_read', 'sensitive_write']`. -/
def part000SensitiveEvents : List String := ["sensitive_read", "sensitive_write"]

/-- The module-level statements of `src/unnamed/part_000` executed when the
file is loaded: `suspected_insiders = identify_insider_threats(access_logs_file, sensitive_events)`
with all optional parameters left at their defaults
(`lateral_threshold = 5`, default dates, `threshold_factor = 3`).  The
value is what the module-level variable `suspected_insiders` is bound to,
as a function of the loader environment. -/
def part000ModuleLoad (loader : String → Option (List AccessEvent)) :
    Option (List AccessEvent) :=
  identifyFromFile loader part000AccessLogsFile part000SensitiveEvents 5 none none 3

/-! ## Basic lemmas about the statistics -/

lemma listVar_nonneg (xs : List ℚ) : 0 ≤ listVar xs := by
  unfold listVar
  rcases xs with _ | ⟨a, ys⟩
  · simp
  · apply div_nonneg
    · apply List.sum_nonneg
      intro x hx
      simp only [List.mem_map] at hx
      obtain ⟨y, _, rfl⟩ := hx
      positivity
    · have h1 : (1 : ℚ) ≤ (((a :: ys).length : ℕ) : ℚ) := by
        have : 1 ≤ (a :: ys).length := by simp
        exact_mod_cast this
      linarith

/-- Soundness of the executable square comparison: `exceeds` decides
exactly the comparison of the count against the real-valued threshold
`mean + f * std`, with the comparison against an undefined (NaN)
threshold false. -/
lemma exceeds_iff (c f : ℚ) (xs : List ℚ) :
    exceeds c f xs = true ↔ gtThreshold c (thresholdOf xs f) := by
  have hv : 0 ≤ listVar xs := listVar_nonneg xs
  have hv' : (0 : ℝ) ≤ ((listVar xs : ℚ) : ℝ) := by exact_mod_cast hv
  by_cases hn : 2 ≤ xs.length
  · have hn' : ¬ xs.length < 2 := not_lt.mpr hn
    simp only [exceeds, thresholdOf, listStd, if_neg hn', Option.map_some', gtThreshold,
      Bool.and_eq_true, decide_eq_true_eq, hn, true_and]
    set m := listMean xs with hm
    set v := listVar xs with hvdef
    by_cases hf : 0 ≤ f
    · have hfR : (0 : ℝ) ≤ (f : ℝ) := by exact_mod_cast hf
      have hs : (0 : ℝ) ≤ (f : ℝ) * Real.sqrt (v : ℝ) :=
        mul_nonneg hfR (Real.sqrt_nonneg _)
      have hsq : ((f : ℝ) * Real.sqrt (v : ℝ)) ^ 2 = (f : ℝ) ^ 2 * (v : ℝ) := by
        rw [mul_pow, Real.sq_sqrt hv']
      simp only [if_pos hf, Bool.and_eq_true, decide_eq_true_eq]
      constructor
      · rintro ⟨h1, h2⟩
        have h1R : ((m : ℚ) : ℝ) < ((c : ℚ) : ℝ) := by exact_mod_cast h1
        have h2R : ((f : ℚ) : ℝ) ^ 2 * ((v : ℚ) : ℝ) < (((c : ℚ) : ℝ) - ((m : ℚ) : ℝ)) ^ 2 := by
          exact_mod_cast h2
        have hlt : (f : ℝ) * Real.sqrt (v : ℝ) < ((c : ℚ) : ℝ) - ((m : ℚ) : ℝ) := by
          apply lt_of_pow_lt_pow_left₀ 2 (by linarith)
          rw [hsq]
          exact h2R
        linarith
      · intro h
        have h1R : ((m : ℚ) : ℝ) < ((c : ℚ) : ℝ) := by linarith
        have hlt : (f : ℝ) * Real.sqrt (v : ℝ) < ((c : ℚ) : ℝ) - ((m : ℚ) : ℝ) := by linarith
        have h2R : ((f : ℚ) : ℝ) ^ 2 * ((v : ℚ) : ℝ) < (((c : ℚ) : ℝ) - ((m : ℚ) : ℝ)) ^ 2 := by
          rw [← hsq]
          exact pow_lt_pow_left₀ hlt hs two_ne_zero
        constructor
        · exact_mod_cast h1R
        · have : ((f ^ 2 * v : ℚ) : ℝ) < (((c - m) ^ 2 : ℚ) : ℝ) := by push_cast; linarith
          exact_mod_cast this
    · have hfR : (f : ℝ) < 0 := by exact_mod_cast not_le.mp hf
      have hbs : (0 : ℝ) ≤ (-(f : ℝ)) * Real.sqrt (v : ℝ) :=
        mul_nonneg (by linarith) (Real.sqrt_nonneg _)
      have hsq : ((-(f : ℝ)) * Real.sqrt (v : ℝ)) ^ 2 = (f : ℝ) ^ 2 * (v : ℝ) := by
        rw [mul_pow, Real.sq_sqrt hv']
        ring
      simp only [if_neg hf, Bool.or_eq_true, decide_eq_true_eq]
      constructor
      · rintro (h1 | h2)
        · have h1R : ((m : ℚ) : ℝ) < ((c : ℚ) : ℝ) := by exact_mod_cast h1
          have : (f : ℝ) * Real.sqrt (v : ℝ) ≤ 0 :=
            mul_nonpos_iff.mpr (Or.inr ⟨le_of_lt hfR, Real.sqrt_nonneg _⟩)
          linarith
        · have h2R : (((c : ℚ) : ℝ) - ((m : ℚ) : ℝ)) ^ 2 < ((f : ℚ) : ℝ) ^ 2 * ((v : ℚ) : ℝ) := by
            have : (((c - m) ^ 2 : ℚ) : ℝ) < ((f ^ 2 * v : ℚ) : ℝ) := by exact_mod_cast h2
            push_cast at this
            linarith
          have habs : |((c : ℚ) : ℝ) - ((m : ℚ) : ℝ)| < (-(f : ℝ)) * Real.sqrt (v : ℝ) := by
            apply lt_of_pow_lt_pow_left₀ 2 hbs
            rw [sq_abs, hsq]
            exact h2R
          have := (abs_lt.mp habs).1
          have hfs : (f : ℝ) * Real.sqrt (v : ℝ) = -((-(f : ℝ)) * Real.sqrt (v : ℝ)) := by ring
          linarith [hfs ▸ this]
      · intro h
        by_cases hmc : m < c
        · exact Or.inl hmc
        · right
          have hcm : ((c : ℚ) : ℝ) - ((m : ℚ) : ℝ) ≤ 0 := by
            have : (c : ℚ) ≤ m := le_of_not_lt hmc
            have : ((c : ℚ) : ℝ) ≤ ((m : ℚ) : ℝ) := by exact_mod_cast this
            linarith
          have habs : |((c : ℚ) : ℝ) - ((m : ℚ) : ℝ)| < (-(f : ℝ)) * Real.sqrt (v : ℝ) := by
            rw [abs_of_nonpos hcm]
            have hfs : (f : ℝ) * Real.sqrt (v : ℝ) = -((-(f : ℝ)) * Real.sqrt (v : ℝ)) := by ring
            linarith [hfs ▸ h]
          have hsqlt : (((c : ℚ) : ℝ) - ((m : ℚ) : ℝ)) ^ 2 < ((f : ℝ)) ^ 2 * ((v : ℚ) : ℝ) := by
            rw [← hsq, ← sq_abs (((c : ℚ) : ℝ) - ((m : ℚ) : ℝ))]
            exact pow_lt_pow_left₀ habs (abs_nonneg _) two_ne_zero
          have : (((c - m) ^ 2 : ℚ) : ℝ) < ((f ^ 2 * v : ℚ) : ℝ) := by push_cast; linarith
          exact_mod_cast this
  · have hn' : xs.length < 2 := not_le.mp hn
    simp [exceeds, thresholdOf, listStd, if_pos hn', gtThreshold, hn]

/-! ## Membership characterizations -/

lemma mem_usersOf {logs : List AccessEvent} {u : String} :
    u ∈ usersOf logs ↔ ∃ e ∈ logs, e.useridentity = u := by
  simp [usersOf, List.mem_dedup]

lemma mem_userSensitiveCounts {logs : List AccessEvent} {sensitive : List String}
    {u : String} {c : ℕ} :
    (u, c) ∈ userSensitiveCounts logs sensitive ↔
      u ∈ usersOf (sensitiveEvents logs sensitive) ∧
        c = countFor (sensitiveEvents logs sensitive) u := by
  constructor
  · intro h
    simp only [userSensitiveCounts, List.mem_map] at h
    obtain ⟨u', hu', heq⟩ := h
    cases heq
    exact ⟨hu', rfl⟩
  · rintro ⟨hu, rfl⟩
    simp only [userSensitiveCounts, List.mem_map]
    exact ⟨u, hu, rfl⟩

lemma mem_sensitiveSuspects {logs : List AccessEvent} {sensitive : List String}
    {f : ℚ} {u : String} :
    u ∈ sensitiveSuspects logs sensitive f ↔
      ∃ c : ℕ, (u, c) ∈ userSensitiveCounts logs sensitive ∧
        exceeds (c : ℚ) f (countValues logs sensitive) = true := by
  constructor
  · intro h
    simp only [sensitiveSuspects, List.mem_map, List.mem_filter] at h
    obtain ⟨p, ⟨hp, hex⟩, rfl⟩ := h
    exact ⟨p.2, hp, hex⟩
  · rintro ⟨c, hc, hex⟩
    simp only [sensitiveSuspects, List.mem_map, List.mem_filter]
    exact ⟨(u, c), ⟨hc, hex⟩, rfl⟩

lemma mem_lateralSuspects {logs : List AccessEvent} {latThr : ℕ} {u : String} :
    u ∈ lateralSuspects logs latThr ↔
      u ∈ usersOf logs ∧ latThr ≤ lateralScore (eventsOfUser logs u) := by
  simp [lateralSuspects, List.mem_filter]

lemma listStd_nonneg {xs : List ℚ} {s : ℝ} (h : listStd xs = some s) : 0 ≤ s := by
  unfold listStd at h
  by_cases hn : xs.length < 2
  · simp [hn] at h
  · simp only [if_neg hn, Option.some_inj] at h
    rw [← h]
    exact Real.sqrt_nonneg _

lemma le_foldr_max_iff (L : List ℕ) (k : ℕ) :
    k ≤ L.foldr max 0 ↔ k = 0 ∨ ∃ x ∈ L, k ≤ x := by
  induction L with
  | nil => simp [Nat.le_zero]
  | cons a L ih =>
    rw [List.foldr_cons, le_max_iff, ih]
    constructor
    · rintro (h | h)
      · exact Or.inr ⟨a, List.mem_cons_self a L, h⟩
      · rcases h with h0 | ⟨x, hx, hk⟩
        · exact Or.inl h0
        · exact Or.inr ⟨x, List.mem_cons_of_mem a hx, hk⟩
    · rintro (h0 | ⟨x, hx, hk⟩)
      · subst h0
        exact Or.inl (Nat.zero_le a)
      · rcases List.mem_cons.mp hx with rfl | hx
        · exact Or.inl hk
        · exact Or.inr (Or.inr ⟨x, hx, hk⟩)

lemma mem_hoursOf_of_distinct_pos {evs : List AccessEvent} {h : ℤ}
    (hpos : 1 ≤ distinctSystemsInHour evs h) : h ∈ hoursOf evs := by
  unfold distinctSystemsInHour at hpos
  have hne : evs.filter (fun e => hourOf e.eventtime == h) ≠ [] := by
    intro hnil
    rw [hnil] at hpos
    simp at hpos
  obtain ⟨e, he⟩ := List.exists_mem_of_ne_nil _ hne
  have hmem := List.mem_filter.mp he
  have hh : hourOf e.eventtime = h := by simpa using hmem.2
  unfold hoursOf
  rw [List.mem_dedup]
  exact List.mem_map.mpr ⟨e, hmem.1, hh⟩

lemma lateralScore_ge_iff {evs : List AccessEvent} {k : ℕ} :
    k ≤ lateralScore evs ↔ k = 0 ∨ ∃ h ∈ hoursOf evs, k ≤ distinctSystemsInHour evs h := by
  unfold lateralScore
  rw [le_foldr_max_iff]
  constructor
  · rintro (h0 | ⟨x, hx, hk⟩)
    · exact Or.inl h0
    · obtain ⟨h, hh, rfl⟩ := List.mem_map.mp hx
      exact Or.inr ⟨h, hh, hk⟩
  · rintro (h0 | ⟨h, hh, hk⟩)
    · exact Or.inl h0
    · exact Or.inr ⟨distinctSystemsInHour evs h, List.mem_map.mpr ⟨h, hh, rfl⟩, hk⟩

/-! ## Claim theorems: scoring -/

/-- C2.  The sensitive-access threshold is
`mean(counts) + threshold_factor * std(counts)` computed over the
per-user sensitive-event count series, and a user is a sensitive-access
suspect exactly when their count strictly exceeds that threshold (a
comparison against the NaN threshold of a sub-2-element series being
false). -/
theorem c2_sensitive_threshold_characterization (logs : List AccessEvent)
    (sensitive : List String) (f : ℚ) (u : String) :
    u ∈ sensitiveSuspects logs sensitive f ↔
      ∃ c : ℕ, (u, c) ∈ userSensitiveCounts logs sensitive ∧
        gtThreshold (c : ℚ)
          ((listStd (countValues logs sensitive)).map
            (fun s => ((listMean (countValues logs sensitive) : ℚ) : ℝ) + (f : ℝ) * s)) := by
  rw [mem_sensitiveSuspects]
  constructor
  · rintro ⟨c, hc, hex⟩
    exact ⟨c, hc, (exceeds_iff _ _ _).mp hex⟩
  · rintro ⟨c, hc, hgt⟩
    exact ⟨c, hc, (exceeds_iff _ _ _).mpr hgt⟩

/-- C5.  Raising the threshold factor never adds a sensitive-access
suspect: with `f1 ≤ f2`, every suspect at factor `f2` is a suspect at
factor `f1`. -/
theorem c5_threshold_factor_monotone (logs : List AccessEvent) (sensitive : List String)
    (f1 f2 : ℚ) (u : String) (hf : f1 ≤ f2)
    (hu : u ∈ sensitiveSuspects logs sensitive f2) :
    u ∈ sensitiveSuspects logs sensitive f1 := by
  rw [mem_sensitiveSuspects] at hu ⊢
  obtain ⟨c, hc, hex⟩ := hu
  refine ⟨c, hc, ?_⟩
  rw [exceeds_iff] at hex ⊢
  unfold thresholdOf at hex ⊢
  cases hstd : listStd (countValues logs sensitive) with
  | none =>
    rw [hstd] at hex
    simp [gtThreshold] at hex
  | some s =>
    rw [hstd] at hex
    simp only [Option.map_some', gtThreshold] at hex ⊢
    have hs : 0 ≤ s := listStd_nonneg hstd
    have hfR : (f1 : ℝ) ≤ (f2 : ℝ) := by exact_mod_cast hf
    nlinarith [mul_le_mul_of_nonneg_right hfR hs]

/-! ## Claim theorem: lateral movement -/

/-- C4.  A user is a lateral-movement suspect exactly when they occur in
the collection and some calendar-hour-aligned window of their events
touches at least `lateral_threshold` distinct systems (the per-user score
being the maximum over hour windows of the distinct-system count, and the
cut being `≥`, not `>`). -/
theorem c4_lateral_characterization (logs : List AccessEvent) (latThr : ℕ) (u : String) :
    u ∈ lateralSuspects logs latThr ↔
      u ∈ usersOf logs ∧
        ∃ h : ℤ, latThr ≤
          (((eventsOfUser logs u).filter (fun e => hourOf e.eventtime == h)).map
              (fun e => e.system)).toFinset.card := by
  rw [mem_lateralSuspects]
  have hcard : ∀ h : ℤ,
      (((eventsOfUser logs u).filter (fun e => hourOf e.eventtime == h)).map
          (fun e => e.system)).toFinset.card =
        distinctSystemsInHour (eventsOfUser logs u) h := by
    intro h
    rw [List.card_toFinset]
    rfl
  constructor
  · rintro ⟨hu, hsc⟩
    refine ⟨hu, ?_⟩
    rcases lateralScore_ge_iff.mp hsc with rfl | ⟨h, _, hk⟩
    · exact ⟨0, by simp⟩
    · exact ⟨h, by rw [hcard]; exact hk⟩
  · rintro ⟨hu, h, hk⟩
    refine ⟨hu, ?_⟩
    rw [hcard] at hk
    apply lateralScore_ge_iff.mpr
    rcases Nat.eq_zero_or_pos latThr with rfl | hpos
    · exact Or.inl rfl
    · exact Or.inr ⟨h, mem_hoursOf_of_distinct_pos (le_trans hpos hk), hk⟩

/-! ## Claim theorems: small populations, dates -/

lemma countValues_length (logs : List AccessEvent) (sensitive : List String) :
    (countValues logs sensitive).length = (usersOf (sensitiveEvents logs sensitive)).length := by
  simp [countValues, userSensitiveCounts]

/-- C3 (amended).  When fewer than 2 distinct users contribute a
sensitive event, the Scorer returns no suspects; with exactly one
contributing user the sample standard deviation (`ddof = 1`) of the
one-element count series is undefined — pandas' `std` is NaN, modelled
`none` — so the NaN threshold comparison is false and the single user is
never flagged, whatever the sign of `threshold_factor`. -/
theorem c3_small_population_no_suspects (logs : List AccessEvent) (sensitive : List String)
    (f : ℚ) (h : (usersOf (sensitiveEvents logs sensitive)).length < 2) :
    sensitiveSuspects logs sensitive f = [] ∧
      ((usersOf (sensitiveEvents logs sensitive)).length = 1 →
        listStd (countValues logs sensitive) = none) := by
  have hlen := countValues_length logs sensitive
  constructor
  · apply List.eq_nil_iff_forall_not_mem.mpr
    intro u hu
    rw [mem_sensitiveSuspects] at hu
    obtain ⟨c, _, hex⟩ := hu
    unfold exceeds at hex
    simp only [Bool.and_eq_true, decide_eq_true_eq] at hex
    have := hex.1
    omega
  · intro h1
    unfold listStd
    rw [if_pos]
    omega

/-- C7.  Omitted dates default to 2022-01-01 (start, inclusive) and
2022-07-01 (end, exclusive), supplied dates are taken as given, and the
collection handed to scoring holds exactly the events with
`start_date <= event_time < end_date`. -/
theorem c7_date_defaulting_half_open (logs : List AccessEvent)
    (sd ed : Option ℤ) (z : ℤ) (ev : AccessEvent) :
    resolvedStart none = date20220101 ∧ resolvedEnd none = date20220701 ∧
      resolvedStart (some z) = z ∧ resolvedEnd (some z) = z ∧
      (ev ∈ scoredCollection logs sd ed ↔
        ev ∈ logs ∧ resolvedStart sd ≤ ev.eventtime ∧ ev.eventtime < resolvedEnd ed) := by
  refine ⟨rfl, rfl, rfl, rfl, ?_⟩
  simp [scoredCollection, filterByDate, List.mem_filter]

/-! ## Claim theorems: the full pipeline -/

lemma mem_combined {logs : List AccessEvent} {sensitive : List String} {f : ℚ}
    {latThr : ℕ} {u : String} :
    u ∈ (sensitiveSuspects logs sensitive f).filter
        (fun v => (lateralSuspects logs latThr).contains v) ↔
      u ∈ sensitiveSuspects logs sensitive f ∧ u ∈ lateralSuspects logs latThr := by
  simp [List.mem_filter]

lemma userSensitiveCounts_nil_of_sensitive_nil (logs : List AccessEvent) :
    userSensitiveCounts logs [] = [] := by
  simp [userSensitiveCounts, sensitiveEvents, usersOf]

/-- C1.  Whenever the count table is non-empty (so both suspect sets are
computed), the returned incident rows are exactly the date-filtered
events whose user is in both the sensitive-access and the
lateral-movement suspect set (an empty intersection yielding the `None`
result, which carries no rows). -/
theorem c1_correlator_characterization (logs : List AccessEvent) (sensitive : List String)
    (latThr : ℕ) (sd ed : Option ℤ) (f : ℚ) (ev : AccessEvent)
    (h : userSensitiveCounts (scoredCollection logs sd ed) sensitive ≠ []) :
    ev ∈ resultEvents (identify_insider_threats logs sensitive latThr sd ed f) ↔
      ev ∈ scoredCollection logs sd ed ∧
        ev.useridentity ∈ sensitiveSuspects (scoredCollection logs sd ed) sensitive f ∧
        ev.useridentity ∈ lateralSuspects (scoredCollection logs sd ed) latThr := by
  have hsens : sensitive.isEmpty = false := by
    rcases sensitive with _ | ⟨s, ss⟩
    · exact absurd (userSensitiveCounts_nil_of_sensitive_nil _) h
    · rfl
  have hcounts : (userSensitiveCounts (scoredCollection logs sd ed) sensitive).isEmpty = false := by
    cases hE : (userSensitiveCounts (scoredCollection logs sd ed) sensitive).isEmpty
    · rfl
    · exact absurd (List.isEmpty_iff.mp hE) h
  simp only [identify_insider_threats, hsens, hcounts, Bool.false_eq_true, if_false]
  by_cases hcomb : ((sensitiveSuspects (scoredCollection logs sd ed) sensitive f).filter
      (fun u => (lateralSuspects (scoredCollection logs sd ed) latThr).contains u)).isEmpty = true
  · rw [if_pos hcomb]
    simp only [resultEvents, Option.getD_none, List.not_mem_nil, false_iff]
    rintro ⟨-, hs, hl⟩
    have hmem : ev.useridentity ∈ (sensitiveSuspects (scoredCollection logs sd ed) sensitive f).filter
        (fun u => (lateralSuspects (scoredCollection logs sd ed) latThr).contains u) :=
      mem_combined.mpr ⟨hs, hl⟩
    rw [List.isEmpty_iff.mp hcomb] at hmem
    exact List.not_mem_nil _ hmem
  · rw [if_neg hcomb]
    simp [resultEvents, sortIncidents, List.mem_filter, and_assoc]

/-- Every result of the pipeline is either `none` or a sorted incident
list. -/
lemma identify_result_shape (logs : List AccessEvent) (sensitive : List String)
    (latThr : ℕ) (sd ed : Option ℤ) (f : ℚ) :
    identify_insider_threats logs sensitive latThr sd ed f = none ∨
      ∃ l0, identify_insider_threats logs sensitive latThr sd ed f =
        some (sortIncidents l0) := by
  simp only [identify_insider_threats]
  by_cases h1 : sensitive.isEmpty = true
  · rw [if_pos h1]
    exact Or.inl rfl
  · rw [if_neg h1]
    by_cases h2 : (userSensitiveCounts (scoredCollection logs sd ed) sensitive).isEmpty = true
    · rw [if_pos h2]
      exact Or.inl rfl
    · rw [if_neg h2]
      by_cases h3 : ((sensitiveSuspects (scoredCollection logs sd ed) sensitive f).filter
          (fun u => (lateralSuspects (scoredCollection logs sd ed) latThr).contains u)).isEmpty = true
      · rw [if_pos h3]
        exact Or.inl rfl
      · rw [if_neg h3]
        exact Or.inr ⟨_, rfl⟩

/-- C6.  The returned incident rows are sorted by
`(user_identity, event_time)` lexicographically ascending; in particular,
of two output rows of the same user, the one appearing first carries the
earlier (or equal) timestamp. -/
theorem c6_output_sorted (logs : List AccessEvent) (sensitive : List String)
    (latThr : ℕ) (sd ed : Option ℤ) (f : ℚ) :
    (resultEvents (identify_insider_threats logs sensitive latThr sd ed f)).Pairwise lexLe ∧
      ∀ (l1 l2 : List AccessEvent) (a b : AccessEvent),
        resultEvents (identify_insider_threats logs sensitive latThr sd ed f) = l1 ++ a :: l2 →
          b ∈ l2 → a.useridentity = b.useridentity → a.eventtime ≤ b.eventtime := by
  have hpair : (resultEvents (identify_insider_threats logs sensitive latThr sd ed f)).Pairwise lexLe := by
    rcases identify_result_shape logs sensitive latThr sd ed f with h | ⟨l0, h⟩
    · rw [h]
      simp [resultEvents]
    · rw [h]
      simp only [resultEvents, Option.getD_some, sortIncidents]
      exact List.sorted_insertionSort lexLe l0
  refine ⟨hpair, ?_⟩
  intro l1 l2 a b heq hb hu
  rw [heq] at hpair
  have h2 := (List.pairwise_append.mp hpair).2.1
  have hab := (List.pairwise_cons.mp h2).1 b hb
  rcases hab with hlt | ⟨-, hle⟩
  · exact absurd hu (ne_of_lt hlt)
  · exact hle

/-- C8 (amended).  From the returned value alone, only a non-empty
incident list is distinguishable: every other terminal outcome — invalid
input, loader failure, empty count table (quiet logs) and empty suspect
intersection — collapses to `None`.  In particular the pipeline never
returns `some []`. -/
theorem c8_result_collapse (logs : List AccessEvent) (sensitive : List String)
    (latThr : ℕ) (sd ed : Option ℤ) (f : ℚ) :
    identify_insider_threats logs sensitive latThr sd ed f = none ∨
      ∃ l, identify_insider_threats logs sensitive latThr sd ed f = some l ∧ l ≠ [] := by
  simp only [identify_insider_threats]
  by_cases h1 : sensitive.isEmpty = true
  · rw [if_pos h1]
    exact Or.inl rfl
  · rw [if_neg h1]
    by_cases h2 : (userSensitiveCounts (scoredCollection logs sd ed) sensitive).isEmpty = true
    · rw [if_pos h2]
      exact Or.inl rfl
    · rw [if_neg h2]
      by_cases h3 : ((sensitiveSuspects (scoredCollection logs sd ed) sensitive f).filter
          (fun u => (lateralSuspects (scoredCollection logs sd ed) latThr).contains u)).isEmpty = true
      · rw [if_pos h3]
        exact Or.inl rfl
      · rw [if_neg h3]
        right
        refine ⟨_, rfl, ?_⟩
        have hne : ((sensitiveSuspects (scoredCollection logs sd ed) sensitive f).filter
            (fun u => (lateralSuspects (scoredCollection logs sd ed) latThr).contains u)) ≠ [] := by
          intro hnil
          exact h3 (by rw [hnil]; rfl)
        obtain ⟨u, hu⟩ := List.exists_mem_of_ne_nil _ hne
        obtain ⟨hs, hl⟩ := mem_combined.mp hu
        obtain ⟨c, hc, -⟩ := mem_sensitiveSuspects.mp hs
        have husers := (mem_userSensitiveCounts.mp hc).1
        obtain ⟨e, he, heu⟩ := mem_usersOf.mp husers
        have hef : e ∈ scoredCollection logs sd ed := List.mem_of_mem_filter he
        have hmem : e ∈ (scoredCollection logs sd ed).filter
            (fun ev => ((sensitiveSuspects (scoredCollection logs sd ed) sensitive f).filter
              (fun u => (lateralSuspects (scoredCollection logs sd ed) latThr).contains u)).contains
                ev.useridentity) := by
          rw [List.mem_filter]
          refine ⟨hef, ?_⟩
          simp only [List.elem_eq_mem, decide_eq_true_eq, heu]
          simpa using hu
        apply List.ne_nil_of_mem
        rw [sortIncidents, List.mem_insertionSort]
        exact hmem

/-! ## Concrete data for witnesses and counterexamples

`part000DemoLogs` is a loader result on which the full pipeline fires
under the module-level defaults of `src/unnamed/part_000`
(`lateral_threshold = 5`, `threshold_factor = 3`, default dates): eleven
users each trigger sensitive events (counts 2, 1, …, 1, so the count 2
exceeds `mean + 3·std = 12/11 + 3/√11`), and `u00` touches five distinct
systems within one calendar hour.  `oneUserLogs` is a single-user,
single-event collection. -/

def part000DemoLogs : List AccessEvent :=
  [⟨"u00", "sensitive_read", 1640995210, "s1"⟩,
   ⟨"u00", "sensitive_read", 1640995220, "s2"⟩,
   ⟨"u00", "login", 1640995230, "s3"⟩,
   ⟨"u00", "login", 1640995240, "s4"⟩,
   ⟨"u00", "login", 1640995250, "s5"⟩,
   ⟨"u01", "sensitive_read", 1640995260, "s1"⟩,
   ⟨"u02", "sensitive_read", 1640995270, "s1"⟩,
   ⟨"u03", "sensitive_read", 1640995280, "s1"⟩,
   ⟨"u04", "sensitive_read", 1640995290, "s1"⟩,
   ⟨"u05", "sensitive_read", 1640995300, "s1"⟩,
   ⟨"u06", "sensitive_read", 1640995310, "s1"⟩,
   ⟨"u07", "sensitive_read", 1640995320, "s1"⟩,
   ⟨"u08", "sensitive_read", 1640995330, "s1"⟩,
   ⟨"u09", "sensitive_read", 1640995340, "s1"⟩,
   ⟨"u10", "sensitive_read", 1640995350, "s1"⟩]

def part000DemoLoader : String → Option (List AccessEvent) := fun _ => some part000DemoLogs

def oneUserLogs : List AccessEvent := [⟨"u1", "sr", 1640995210, "s1"⟩]

lemma demo_filtered : scoredCollection part000DemoLogs none none = part000DemoLogs := by
  decide

lemma demo_counts : userSensitiveCounts part000DemoLogs part000SensitiveEvents =
    [("u00", 2), ("u01", 1), ("u02", 1), ("u03", 1), ("u04", 1), ("u05", 1),
     ("u06", 1), ("u07", 1), ("u08", 1), ("u09", 1), ("u10", 1)] := by
  decide

lemma demo_values : countValues part000DemoLogs part000SensitiveEvents =
    [2, 1, 1, 1, 1, 1, 1, 1, 1, 1, 1] := by
  decide

lemma demo_exceeds_two : exceeds 2 3 [2, 1, 1, 1, 1, 1, 1, 1, 1, 1, 1] = true := by
  norm_num [exceeds, listMean, listVar]

lemma demo_exceeds_one : exceeds 1 3 [2, 1, 1, 1, 1, 1, 1, 1, 1, 1, 1] = false := by
  norm_num [exceeds, listMean, listVar]

lemma demo_sens_suspects :
    sensitiveSuspects part000DemoLogs part000SensitiveEvents 3 = ["u00"] := by
  simp [sensitiveSuspects, demo_counts, demo_values, demo_exceeds_two, demo_exceeds_one]

lemma demo_mem_suspects3 : "u00" ∈ sensitiveSuspects part000DemoLogs part000SensitiveEvents 3 := by
  rw [demo_sens_suspects]
  exact List.mem_singleton_self "u00"

lemma demo_lat_suspects : lateralSuspects part000DemoLogs 5 = ["u00"] := by
  decide

lemma part000_demo_isSome : (part000ModuleLoad part000DemoLoader).isSome = true := by
  have h : part000ModuleLoad part000DemoLoader =
      identify_insider_threats part000DemoLogs part000SensitiveEvents 5 none none 3 := rfl
  rw [h]
  simp only [identify_insider_threats, demo_filtered, demo_counts, demo_sens_suspects,
    demo_lat_suspects]
  decide

/-! ## Witnesses and counterexamples -/

/-- Witness for C1 at a one-event collection (whose count table is
non-empty). -/
theorem c1_correlator_witness :
    ((⟨"u1", "sr", 1640995210, "s1"⟩ : AccessEvent) ∈
        resultEvents (identify_insider_threats oneUserLogs ["sr"] 5 none none 3)) ↔
      ((⟨"u1", "sr", 1640995210, "s1"⟩ : AccessEvent) ∈ scoredCollection oneUserLogs none none ∧
        "u1" ∈ sensitiveSuspects (scoredCollection oneUserLogs none none) ["sr"] 3 ∧
        "u1" ∈ lateralSuspects (scoredCollection oneUserLogs none none) 5) :=
  c1_correlator_characterization oneUserLogs ["sr"] 5 none none 3 _ (by decide)

/-- Witness for C3 at a single-user, single-event collection. -/
theorem c3_small_population_witness :
    sensitiveSuspects oneUserLogs ["sr"] 3 = [] ∧
      ((usersOf (sensitiveEvents oneUserLogs ["sr"])).length = 1 →
        listStd (countValues oneUserLogs ["sr"]) = none) :=
  c3_small_population_no_suspects oneUserLogs ["sr"] 3 (by decide)

/-- Counterexample to C3 as stated: on a collection where exactly one
user contributes sensitive events, the sample standard deviation of the
one-element count series is not 0 — it is undefined (pandas NaN,
modelled `none`), so the threshold is not `mean + f·0` either. -/
theorem c3_std_not_zero_counterexample :
    (usersOf (sensitiveEvents oneUserLogs ["sr"])).length = 1 ∧
      listStd (countValues oneUserLogs ["sr"]) = none ∧
      listStd (countValues oneUserLogs ["sr"]) ≠ some 0 ∧
      thresholdOf (countValues oneUserLogs ["sr"]) 3 = none := by
  have hlen : (countValues oneUserLogs ["sr"]).length < 2 := by
    rw [countValues_length]
    decide
  have hnone : listStd (countValues oneUserLogs ["sr"]) = none := by
    unfold listStd
    rw [if_pos hlen]
  refine ⟨by decide, hnone, by rw [hnone]; simp, ?_⟩
  unfold thresholdOf
  rw [hnone]
  rfl

/-- Witness for C5: on `part000DemoLogs` the user `u00` is a suspect at
factor 3, hence also at the smaller factor 0. -/
theorem c5_threshold_factor_witness :
    "u00" ∈ sensitiveSuspects part000DemoLogs part000SensitiveEvents 0 :=
  c5_threshold_factor_monotone part000DemoLogs part000SensitiveEvents 0 3 "u00"
    (by norm_num) demo_mem_suspects3

/-- Counterexample to C8 as stated: the returned value does not
distinguish the terminal outcomes.  An invalid-input error (empty
sensitive set), a quiet log (no sensitive events, the no-signal case) and
a loader failure (`FileNotFoundError`) all come back as the same `None`. -/
theorem c8_collapse_counterexample :
    identify_insider_threats oneUserLogs [] 5 none none 3 = none ∧
      identify_insider_threats oneUserLogs ["absent_event_type"] 5 none none 3 = none ∧
      identifyFromFile (fun _ => none) "logs.csv" ["sr"] 5 none none 3 = none := by
  refine ⟨by decide, by decide, by decide⟩

/-- Counterexample to C9 as stated: merely loading
`src/unnamed/part_000` runs the detector — under a loader that resolves
`your_real_access_logs.csv`, the module-level `suspected_insiders`
binding already holds a computed incident set. -/
theorem c9_module_load_counterexample :
    (part000ModuleLoad part000DemoLoader).isSome = true :=
  part000_demo_isSome

/-- C9 (amended).  `src/Insider_Threat_Detection.py` has no module-level
computation, but loading `src/unnamed/part_000` invokes
`identify_insider_threats` on the hard-coded file
`your_real_access_logs.csv` with sensitive set
`['sensitive_read', 'sensitive_write']` and all defaults, binding the
module-level `suspected_insiders`; for a loader that resolves the file,
detection work runs at load and can produce a non-`None` suspect value. -/
theorem c9_module_load_amended :
    (∀ loader : String → Option (List AccessEvent),
        part000ModuleLoad loader =
          identifyFromFile loader "your_real_access_logs.csv"
            ["sensitive_read", "sensitive_write"] 5 none none 3) ∧
      ∃ loader : String → Option (List AccessEvent),
        (part000ModuleLoad loader).isSome = true :=
  ⟨fun _ => rfl, ⟨part000DemoLoader, part000_demo_isSome⟩⟩

/-! ## The scoring-only variant `src/Insider_Threat_Detection.py`

A separate embedding of the other source file, for the refinement claim:
its date filtering, count-table construction, threshold and suspect
selection (lines 30–49 of that file) are translated here from that file's
own text.  Its `identify_insider_threats` has no lateral-movement stage
and returns the suspect series itself (user with count), or `None`. -/

namespace PyVariant

/-- `access_logs[(access_logs['eventtime'] >= start_date) & (access_logs['eventtime'] < end_date)]`
of `src/Insider_Threat_Detection.py`. -/
def filterByDate (logs : List AccessEvent) (s e : ℤ) : List AccessEvent :=
  logs.filter (fun ev => decide (s ≤ ev.eventtime) && decide (ev.eventtime < e))

/-- Date defaulting and filtering of `src/Insider_Threat_Detection.py`
(lines 30–36), identical in text to the `part_000` variant. -/
def scoredCollection (logs : List AccessEvent) (sd ed : Option ℤ) : List AccessEvent :=
  filterByDate logs (sd.getD date20220101) (ed.getD date20220701)

/-- `access_logs[access_logs['eventtype'].isin(sensitive_events)]`. -/
def sensitiveEvents (logs : List AccessEvent) (sensitive : List String) : List AccessEvent :=
  logs.filter (fun e => sensitive.contains e.eventtype)

/-- The group-by index of `groupby('useridentity')`. -/
def usersOf (logs : List AccessEvent) : List String :=
  (logs.map (fun e => e.useridentity)).dedup

/-- One group's `count()`. -/
def countFor (logs : List AccessEvent) (u : String) : ℕ :=
  (logs.filter (fun e => e.useridentity == u)).length

/-- The per-user sensitive-event count series (lines 39–40). -/
def userSensitiveCounts (logs : List AccessEvent) (sensitive : List String) :
    List (String × ℕ) :=
  (usersOf (sensitiveEvents logs sensitive)).map
    (fun u => (u, countFor (sensitiveEvents logs sensitive) u))

/-- The values of the count series. -/
def countValues (logs : List AccessEvent) (sensitive : List String) : List ℚ :=
  (userSensitiveCounts logs sensitive).map (fun p => (p.2 : ℚ))

/-- `mean() + threshold_factor * std()` of line 44 (`std` with
`ddof = 1`, NaN as `none`). -/
noncomputable def thresholdOf (xs : List ℚ) (f : ℚ) : Option ℝ :=
  (if xs.length < 2 then none else some (Real.sqrt ((listVar xs : ℚ) : ℝ))).map
    (fun s => ((listMean xs : ℚ) : ℝ) + (f : ℝ) * s)

/-- Executable form of the `count > threshold` comparison of line 47, as
for the `part_000` variant. -/
def exceeds (c f : ℚ) (xs : List ℚ) : Bool :=
  decide (2 ≤ xs.length) &&
    (if 0 ≤ f then
      decide (listMean xs < c) && decide (f ^ 2 * listVar xs < (c - listMean xs) ^ 2)
     else
      decide (listMean xs < c) || decide ((c - listMean xs) ^ 2 < f ^ 2 * listVar xs))

/-- The suspect users of line 47. -/
def sensitiveSuspects (logs : List AccessEvent) (sensitive : List String) (f : ℚ) :
    List String :=
  ((userSensitiveCounts logs sensitive).filter
      (fun p => exceeds (p.2 : ℚ) f (countValues logs sensitive))).map (fun p => p.1)

/-- The entry point of `src/Insider_Threat_Detection.py`: validate,
filter, count, and return the suspect series (with counts) or `None` —
no lateral-movement stage, no correlation. -/
def identify_insider_threats (logs : List AccessEvent) (sensitive : List String)
    (start_date end_date : Option ℤ) (threshold_factor : ℚ) :
    Option (List (String × ℕ)) :=
  if sensitive.isEmpty then none
  else
    let filtered := scoredCollection logs start_date end_date
    let counts := userSensitiveCounts filtered sensitive
    if counts.isEmpty then none
    else
      some (counts.filter
        (fun p => exceeds (p.2 : ℚ) threshold_factor (countValues filtered sensitive)))

end PyVariant

/-- C10.  The sensitive-access scoring stage of the two source variants
is the same function of the parsed inputs: on identical log records,
sensitive-event set, dates and threshold factor, the filtered collection,
the per-user count table, the threshold and the suspect set of
`src/Insider_Threat_Detection.py` coincide with those of
`src/unnamed/part_000`. -/
theorem c10_scoring_stage_equivalence (logs : List AccessEvent) (sensitive : List String)
    (sd ed : Option ℤ) (f : ℚ) :
    PyVariant.scoredCollection logs sd ed = scoredCollection logs sd ed ∧
      PyVariant.userSensitiveCounts (PyVariant.scoredCollection logs sd ed) sensitive =
        userSensitiveCounts (scoredCollection logs sd ed) sensitive ∧
      PyVariant.thresholdOf (PyVariant.countValues (PyVariant.scoredCollection logs sd ed) sensitive) f =
        thresholdOf (countValues (scoredCollection logs sd ed) sensitive) f ∧
      PyVariant.sensitiveSuspects (PyVariant.scoredCollection logs sd ed) sensitive f =
        sensitiveSuspects (scoredCollection logs sd ed) sensitive f :=
  ⟨rfl, rfl, rfl, rfl⟩
